import Mathlib

/-!
Verification of the reservation core (abi + reservation crates).

The development shallowly embeds the Rust source:
* the conflict-diagnostic parsing pipeline of src/abi/src/error/conflict.rs,
* the error taxonomy and translation of src/abi/src/error/mod.rs,
* reservation validation of src/abi/src/types/reservation.rs,
* the timestamp conversions of src/abi/src/utils.rs,
* the manager operations of src/reservation/src/manager.rs.

Machine integers are modelled as Int/Nat (none of the arithmetic here can
overflow an i64 on the inputs the program handles), instants of chrono
DateTime of Utc are modelled as seconds since the Unix epoch plus a
subsecond nanosecond component, and fallible Rust code returns
Except/Option.  A Rust panic (unwrap of None, assert failure) is modelled
by an explicit panicked constructor, so that the no-hard-failure claims
can be stated and settled.
-/

namespace Rsvp

/-! ## Proleptic Gregorian calendar conversions

Modelled from the spec: the chrono and prost-types crates (external
collaborators of this repository, not part of src/) convert between an
instant (seconds since the Unix epoch) and civil calendar fields using the
proleptic Gregorian calendar.  The standard era-based algorithms below
compute exactly that correspondence; division is Euclidean (equal to floor
division since every divisor is positive). -/

/-- Year-of-era locator inside one 400-year cycle: for a day-of-era doe,
gN doe / 365 is the (March-based) year-of-era containing it. -/
def gN (doe : Nat) : Nat := doe - doe / 1460 + doe / 36524 - doe / 146096

/-- First day-of-era of (March-based) year-of-era y. -/
def yearStartN (y : Nat) : Nat := 365 * y + y / 4 - y / 100

/-- Is a (proleptic Gregorian) year a leap year, year given modulo 400. -/
def leapN (y : Nat) : Bool :=
  decide (y % 4 = 0) && (decide (y % 100 ≠ 0) || decide (y % 400 = 0))

/-- Length in days of (March-based) year-of-era y: its February belongs to
civil year y + 1 of the cycle. -/
def yearLenN (y : Nat) : Nat := 365 + (if leapN ((y + 1) % 400) then 1 else 0)

/-- Split a day-of-era (0 ≤ doe < 146097, one 400-year Gregorian cycle)
into (year-of-era, month, day). -/
def doeSplit (doe : Nat) : Nat × Nat × Nat :=
  let yoe := gN doe / 365
  let doy := doe - yearStartN yoe
  let mp := (5 * doy + 2) / 153
  let d := doy - (153 * mp + 2) / 5 + 1
  let m := if mp < 10 then mp + 3 else mp - 9
  (yoe, m, d)

/-- Rebuild a day-of-era from (year-of-era, month, day). -/
def doeJoin (yoe m d : Nat) : Nat :=
  let mp := if 3 ≤ m then m - 3 else m + 9
  let doy := (153 * mp + 2) / 5 + (d - 1)
  yearStartN yoe + doy

/-- Number of days of a month, given the leap-ness of its year. -/
def daysInMonth (lp : Bool) (m : Nat) : Nat :=
  if m = 2 then (if lp then 29 else 28)
  else if m = 4 ∨ m = 6 ∨ m = 9 ∨ m = 11 then 30
  else 31

/-- Soundness of the month/day extraction from a day-of-year, checked for
one day-of-year value (lp is the leap-ness of the year the February of
this March-based year falls in). -/
def monthOk (lp : Bool) (doy : Nat) : Bool :=
  let mp := (5 * doy + 2) / 153
  let d := doy - (153 * mp + 2) / 5 + 1
  let m := if mp < 10 then mp + 3 else mp - 9
  ((if 3 ≤ m then m - 3 else m + 9) == mp) &&
  ((153 * mp + 2) / 5 + (d - 1) == doy) &&
  decide (1 ≤ m) && decide (m ≤ 12) && decide (1 ≤ d) &&
  decide (d ≤ daysInMonth lp m)

/-- Is a (proleptic Gregorian) year a leap year, year as an integer. -/
def leapZ (y : Int) : Bool :=
  decide (y % 4 = 0) && (decide (y % 100 ≠ 0) || decide (y % 400 = 0))

/-- Civil calendar date of a day count since 1970-01-01 (era decomposition
into 400-year cycles, then doeSplit within the cycle). -/
def civilFromDays (z : Int) : Int × Nat × Nat :=
  let zz := z + 719468
  let era := zz / 146097
  let doe := (zz % 146097).toNat
  let (yoe, m, d) := doeSplit doe
  (era * 400 + yoe + (if m ≤ 2 then 1 else 0), m, d)

/-- Day count since 1970-01-01 of a civil calendar date. -/
def daysFromCivil (y : Int) (m d : Nat) : Int :=
  let y2 := if m ≤ 2 then y - 1 else y
  let era := y2 / 400
  let yoe := (y2 % 400).toNat
  era * 146097 + (doeJoin yoe m d : Int) - 719468

/-- Result of running Rust code that can abort: either a value or a panic
(unwrap of None / unwrap of Err / failed assert). -/
inductive Panics (α : Type) where
  | panicked : Panics α
  | ok : α → Panics α
deriving DecidableEq

/-- Result of running Rust code returning Result of unit error that can
also abort: a value, a clean Err, or a panic. -/
inductive PResult (α : Type) where
  | panicked : PResult α
  | failed : PResult α
  | ok : α → PResult α
deriving DecidableEq

/-- Protobuf well-known Timestamp type (prost_types::Timestamp, the
generated Reservation struct stores start_time and end_time as optional
values of it): seconds since the Unix epoch plus a subsecond nanosecond
component. -/
structure Timestamp where
  seconds : Int
  nanos : Int
deriving DecidableEq

/-- A chrono DateTime instant (any fixed offset; chrono comparisons and
conversions go through the instant): whole seconds since the Unix epoch
plus a subsecond nanosecond component in [0, 10 ^ 9). -/
structure DateTime where
  secs : Int
  nanos : Nat
deriving DecidableEq

/-- Modelled from the spec: the prost_types Timestamp date_time
constructor used by to_timestamp — checks that the civil fields form a
valid calendar datetime and returns the Timestamp of that UTC civil
datetime (whole seconds, nanos 0); the Rust caller unwraps the error
case, a panic. -/
def timestampDateTime (y : Int) (m d hh mi ss : Nat) : Option Timestamp :=
  if 1 ≤ m ∧ m ≤ 12 ∧ 1 ≤ d ∧ d ≤ daysInMonth (leapZ y) m ∧
      hh < 24 ∧ mi < 60 ∧ ss < 60 then
    some ⟨daysFromCivil y m d * 86400 + (hh * 3600 + mi * 60 + ss : Nat), 0⟩
  else none

/-- to_timestamp of src/abi/src/utils.rs: convert the instant to UTC,
read its civil calendar fields through the chrono Datelike and Timelike
accessors (the subsecond part does not appear in them) and rebuild a
protobuf Timestamp with prost date_time, unwrapping the result. -/
def to_timestamp (dt : DateTime) : Panics Timestamp :=
  let days := dt.secs / 86400
  let sod := (dt.secs % 86400).toNat
  match civilFromDays days with
  | (y, m, d) =>
    match timestampDateTime y m d (sod / 3600) (sod % 3600 / 60) (sod % 60) with
    | some t => .ok t
    | none => .panicked

/-! ## Conflict diagnostic parsing (src/abi/src/error/conflict.rs)

The Rust code extracts, with the regex
(?P k1 word+) spaces , spaces (?P k2 word+) \) = \( (?P v1 word+) spaces ,
spaces \[ (?P v2 one or more characters other than a closing parenthesis
or closing square bracket), every occurrence in the diagnostic string,
builds one key/value HashMap per occurrence and converts the first two
maps into the new/old reservation windows.  Because every quantified
character class excludes the character required right after it, the
greedy leftmost-first match of this regex is computed exactly by the
deterministic longest-run scanner below. -/

/-- The regex word class: ASCII letters, digits, underscore and hyphen. -/
def isWordChar (c : Char) : Bool := c.isAlpha || c.isDigit || c == '_' || c == '-'

/-- ASCII whitespace as matched by the regex space class. -/
def isSpaceChar (c : Char) : Bool :=
  c == ' ' || c == '\t' || c == '\n' || c == '\r' || c == '\x0B' || c == '\x0C'

/-- The class of the final capture: anything but a closing parenthesis or
closing square bracket. -/
def isValueChar (c : Char) : Bool := !(c == ')' || c == ']')

/-- One attempted match of the clause pattern at the head of the character
list; on success, the four captures (k1, k2, v1, v2) and the rest of the
input after the match. -/
def matchClauseAt (l : List Char) : Option ((String × String × String × String) × List Char) :=
  match l with
  | '(' :: r0 =>
    let k1 := r0.takeWhile isWordChar
    let r1 := r0.dropWhile isWordChar
    if k1.isEmpty then none else
    match r1.dropWhile isSpaceChar with
    | ',' :: r2 =>
      let r3 := r2.dropWhile isSpaceChar
      let k2 := r3.takeWhile isWordChar
      let r4 := r3.dropWhile isWordChar
      if k2.isEmpty then none else
      match r4 with
      | ')' :: '=' :: '(' :: r5 =>
        let v1 := r5.takeWhile isWordChar
        let r6 := r5.dropWhile isWordChar
        if v1.isEmpty then none else
        match r6.dropWhile isSpaceChar with
        | ',' :: r7 =>
          match r7.dropWhile isSpaceChar with
          | '[' :: r8 =>
            let v2 := r8.takeWhile isValueChar
            let r9 := r8.dropWhile isValueChar
            if v2.isEmpty then none
            else some ((k1.asString, k2.asString, v1.asString, v2.asString), r9)
          | _ => none
        | _ => none
      | _ => none
    | _ => none
  | _ => none

/-- All non-overlapping leftmost matches of the clause pattern, scanning
left to right (regex captures_iter).  The first argument is fuel: every
step consumes at least one input character, so the input length is always
enough fuel. -/
def scanCaptures : Nat → List Char → List (String × String × String × String)
  | 0, _ => []
  | _, [] => []
  | fuel + 1, c :: rest =>
    match matchClauseAt (c :: rest) with
    | some (caps, r) => caps :: scanCaptures fuel r
    | none => scanCaptures fuel rest

/-- A HashMap String String modelled as an insertion list: a later insert
for an existing key overwrites its value. -/
abbrev KvMap := List (String × String)

/-- HashMap insert. -/
def kvInsert (m : KvMap) (k v : String) : KvMap :=
  match m with
  | [] => [(k, v)]
  | (k2, v2) :: rest => if k2 == k then (k, v) :: rest else (k2, v2) :: kvInsert rest k v

/-- HashMap get. -/
def kvGet (m : KvMap) (k : String) : Option String :=
  (m.find? (fun p => p.1 == k)).map (fun p => p.2)

/-- Per-capture map construction: insert k1 mapped to v1, then k2 mapped
to v2 into an empty map. -/
def capsToMap (caps : String × String × String × String) : KvMap :=
  match caps with
  | (k1, k2, v1, v2) => kvInsert (kvInsert [] k1 v1) k2 v2

/-- The intermediate ParseInfo struct: the first capture map (new) and the
second (old). -/
structure ParseInfo where
  new : KvMap
  old : KvMap
deriving DecidableEq

/-- FromStr for ParseInfo: run the regex over the whole string; if the
number of matches is not exactly two, fail; otherwise the first map is new
and the second is old. -/
def ParseInfo.ofString (s : String) : Except Unit ParseInfo :=
  let maps := (scanCaptures s.length s.data).map capsToMap
  match maps with
  | [m1, m2] => .ok ⟨m1, m2⟩
  | _ => .error ()

/-- Reads 1 up to maxW leading decimal digits greedily. -/
def readNum (maxW : Nat) (cs : List Char) : Option (Nat × List Char) :=
  let ds := (cs.takeWhile Char.isDigit).take maxW
  if ds.isEmpty then none
  else some (ds.foldl (fun a c => a * 10 + (c.toNat - 48)) 0, cs.drop ds.length)

/-- Reads exactly two decimal digits. -/
def readNum2 (cs : List Char) : Option (Nat × List Char) :=
  match cs with
  | c1 :: c2 :: r =>
    if c1.isDigit && c2.isDigit then some ((c1.toNat - 48) * 10 + (c2.toNat - 48), r)
    else none
  | _ => none

/-- Drop leading whitespace. -/
def skipWs (cs : List Char) : List Char := cs.dropWhile isSpaceChar

/-- The chrono year item: an optional sign followed by digits (at most
four without a sign). -/
def parseYearPart (cs : List Char) : Option (Int × List Char) :=
  match cs with
  | '+' :: r => (readNum 18 r).map (fun p => ((p.1 : Int), p.2))
  | '-' :: r => (readNum 18 r).map (fun p => (-(p.1 : Int), p.2))
  | _ => (readNum 4 cs).map (fun p => ((p.1 : Int), p.2))

/-- The permissive chrono timezone offset item: Z, or a sign, a two-digit
hour, optional colons or spaces, and an optional two-digit minute.
Returns the offset in seconds. -/
def parseOffsetPart (cs : List Char) : Option (Int × List Char) :=
  match cs with
  | 'Z' :: r => some (0, r)
  | 'z' :: r => some (0, r)
  | c :: r =>
    if c == '+' || c == '-' then
      match readNum2 r with
      | none => none
      | some (hh, r2) =>
        let r3 := r2.dropWhile (fun ch => ch == ':' || isSpaceChar ch)
        let (mm, r4) :=
          match readNum2 r3 with
          | some (mm, r4) => (mm, r4)
          | none => (0, r3)
        let off : Int := hh * 3600 + mm * 60
        some (if c == '-' then -off else off, r4)
    else none
  | [] => none

/-- Modelled from the spec: chrono NaiveDate calendar validity
(from_ymd_opt), including the chrono year range. -/
def chronoValidDate (y : Int) (m d : Nat) : Bool :=
  decide (-262144 ≤ y) && decide (y ≤ 262143) && decide (1 ≤ m) && decide (m ≤ 12) &&
  decide (1 ≤ d) && decide (d ≤ daysInMonth (leapZ y) m)

/-- Modelled from the spec: chrono DateTime parse_from_str with the format
"%Y-%m-%d %H:%M:%S%#z" followed by with_timezone to Utc (which keeps the
instant).  Numeric items and the offset item skip leading whitespace, the
literal separators must match exactly, the whole input must be consumed
and the civil fields must form a valid date and time with an offset
smaller than a day.  A second field of 60 (leap second) is not modelled:
the store formats seconds in 00-59. -/
def chronoParseDate (s : String) : Option DateTime :=
  match parseYearPart (skipWs s.data) with
  | none => none
  | some (y, r1) =>
  match r1 with
  | '-' :: r2 =>
    match readNum 2 (skipWs r2) with
    | none => none
    | some (mo, r3) =>
    match r3 with
    | '-' :: r4 =>
      match readNum 2 (skipWs r4) with
      | none => none
      | some (dy, r5) =>
      match readNum 2 (skipWs r5) with
      | none => none
      | some (hh, r6) =>
      match r6 with
      | ':' :: r7 =>
        match readNum 2 (skipWs r7) with
        | none => none
        | some (mi, r8) =>
        match r8 with
        | ':' :: r9 =>
          match readNum 2 (skipWs r9) with
          | none => none
          | some (ss, r10) =>
          match parseOffsetPart (skipWs r10) with
          | none => none
          | some (off, r11) =>
            if r11.isEmpty && chronoValidDate y mo dy &&
                decide (hh < 24) && decide (mi < 60) && decide (ss < 60) &&
                decide (-86400 < off) && decide (off < 86400) then
              some ⟨daysFromCivil y mo dy * 86400 + (hh * 3600 + mi * 60 + ss : Nat) - off, 0⟩
            else none
        | _ => none
      | _ => none
    | _ => none
  | _ => none

/-- parse_date of src/abi/src/error/conflict.rs: chrono parse_from_str
with "%Y-%m-%d %H:%M:%S%#z", the error mapped to unit, then converted to
the UTC timezone (same instant). -/
def parse_date (s : String) : Except Unit DateTime :=
  match chronoParseDate s with
  | some dt => .ok dt
  | none => .error ()

/-- One side of a reservation conflict: resource id and the half-open
window bounds (endT models the Rust field named end, a reserved word
here). -/
structure ReservationWindow where
  rid : String
  start : DateTime
  endT : DateTime
deriving DecidableEq

/-- The structured conflict: the rejected incoming window (new) and the
existing window it collided with (old). -/
structure ReservationConflict where
  new : ReservationWindow
  old : ReservationWindow
deriving DecidableEq

/-- Best-effort parse result of a conflict diagnostic. -/
inductive ReservationConflictInfo where
  | Parsed : ReservationConflict → ReservationConflictInfo
  | Unparsed : String → ReservationConflictInfo
deriving DecidableEq

/-- replace of all double-quote characters by nothing. -/
def stripQuotes (s : String) : String :=
  String.mk (s.data.filter (fun c => c ≠ '"'))

/-- splitn(2, comma): the part before the first comma and, when a comma
exists, the remainder after it. -/
def splitFirstComma : List Char → List Char × Option (List Char)
  | [] => ([], none)
  | c :: r =>
    if c = ',' then ([], some r)
    else
      let (a, b) := splitFirstComma r
      (c :: a, b)

/-- TryFrom of a capture HashMap into a ReservationWindow: take the
timespan value (failing cleanly when absent), strip quotes, split at the
first comma, parse both timestamps (failing cleanly), then read the
resource_id value with unwrap — a panic when that key is absent. -/
def ReservationWindow.ofMap (m : KvMap) : PResult ReservationWindow :=
  match kvGet m "timespan" with
  | none => .failed
  | some ts =>
    let tss := stripQuotes ts
    match splitFirstComma tss.data with
    | (s1, rest) =>
      match parse_date (String.mk s1) with
      | .error _ => .failed
      | .ok st =>
        match rest with
        | none => .failed
        | some s2 =>
          match parse_date (String.mk s2) with
          | .error _ => .failed
          | .ok en =>
            match kvGet m "resource_id" with
            | none => .panicked
            | some rid => .ok ⟨rid, st, en⟩

/-- TryFrom of ParseInfo into ReservationConflict: convert the new map,
then the old map. -/
def ReservationConflict.ofParseInfo (p : ParseInfo) : PResult ReservationConflict :=
  match ReservationWindow.ofMap p.new with
  | .panicked => .panicked
  | .failed => .failed
  | .ok n =>
    match ReservationWindow.ofMap p.old with
    | .panicked => .panicked
    | .failed => .failed
    | .ok o => .ok ⟨n, o⟩

/-- FromStr for ReservationConflict: parse the ParseInfo, then convert. -/
def ReservationConflict.ofString (s : String) : PResult ReservationConflict :=
  match ParseInfo.ofString s with
  | .error _ => .failed
  | .ok p => ReservationConflict.ofParseInfo p

/-- FromStr for ReservationConflictInfo (error type Infallible): a clean
parse failure degrades to Unparsed with the original string; only a panic
escapes. -/
def ReservationConflictInfo.ofString (s : String) : Panics ReservationConflictInfo :=
  match ReservationConflict.ofString s with
  | .ok c => .ok (.Parsed c)
  | .failed => .ok (.Unparsed s)
  | .panicked => .panicked

/-- Shorthand for the instant of a UTC civil datetime (whole seconds). -/
def utcInstant (y : Int) (mo dy hh mi ss : Nat) : DateTime :=
  ⟨daysFromCivil y mo dy * 86400 + (hh * 3600 + mi * 60 + ss : Nat), 0⟩

/-! ## Error taxonomy and translation (src/abi/src/error/mod.rs) -/

/-- A Postgres database error as surfaced by sqlx: the SQLSTATE code and
the optional schema, table and detail fields of the server message. -/
structure PgDatabaseError where
  code : String
  schema : Option String
  table : Option String
  detail : Option String
deriving DecidableEq

/-- The sqlx error type as far as the translation distinguishes it: a
database (server) error carrying a PgDatabaseError, the row-not-found
marker, or any other sqlx failure (opaque, tagged only for
distinctness). -/
inductive SqlxError where
  | Database : PgDatabaseError → SqlxError
  | RowNotFound : SqlxError
  | Other : String → SqlxError
deriving DecidableEq

/-- The closed domain error taxonomy. -/
inductive Error where
  | DbError : SqlxError → Error
  | ConflictReservation : ReservationConflictInfo → Error
  | NotFound : Error
  | InvalidReservationId : String → Error
  | InvalidTime : Error
  | InvalidUserId : String → Error
  | InvalidResourceId : String → Error
  | Unknown : Error
deriving DecidableEq

/-- The hand-written PartialEq for Error: any two DbError values compare
equal regardless of payload; ConflictReservation and the three invalid-id
variants compare by payload; the unit variants compare equal to
themselves; different variants never compare equal. -/
def Error.peq : Error → Error → Bool
  | .DbError _, .DbError _ => true
  | .ConflictReservation v1, .ConflictReservation v2 => decide (v1 = v2)
  | .InvalidReservationId v1, .InvalidReservationId v2 => decide (v1 = v2)
  | .InvalidUserId v1, .InvalidUserId v2 => decide (v1 = v2)
  | .InvalidResourceId v1, .InvalidResourceId v2 => decide (v1 = v2)
  | .NotFound, .NotFound => true
  | .InvalidTime, .InvalidTime => true
  | .Unknown, .Unknown => true
  | _, _ => false

/-- Constructor tag of an Error value, used to state that values of
distinct kinds never compare equal. -/
def Error.kindIdx : Error → Nat
  | .DbError _ => 0
  | .ConflictReservation _ => 1
  | .NotFound => 2
  | .InvalidReservationId _ => 3
  | .InvalidTime => 4
  | .InvalidUserId _ => 5
  | .InvalidResourceId _ => 6
  | .Unknown => 7

/-- From sqlx Error for Error: a database error whose code, schema and
table match the reservations exclusion constraint signature becomes
ConflictReservation of the parse of the detail text (the detail option
and the parse result are both unwrapped: a missing detail panics, and the
parse itself can only panic since its error type is Infallible);
every other database error and any other sqlx error is wrapped opaquely
in DbError; row-not-found becomes NotFound. -/
def Error.fromSqlx : SqlxError → Panics Error
  | .Database e =>
    if e.code == "23P01" && e.schema == some "rsvp" && e.table == some "reservations" then
      match e.detail with
      | none => .panicked
      | some d =>
        match ReservationConflictInfo.ofString d with
        | .panicked => .panicked
        | .ok info => .ok (.ConflictReservation info)
    else .ok (.DbError (.Database e))
  | .RowNotFound => .ok .NotFound
  | .Other t => .ok (.DbError (.Other t))

/-! ## Reservation data model and validation
(src/abi/src/types/reservation.rs and the prost generated types) -/

/-- The protobuf enum ReservationStatus (prost generated): Unknown 0,
Pending 1, Confirmed 2, Blocked 3. -/
inductive ReservationStatus where
  | Unknown
  | Pending
  | Confirmed
  | Blocked
deriving DecidableEq

/-- Modelled from the spec: the prost generated from_i32 accessor maps
the known discriminants and rejects every other integer. -/
def ReservationStatus.from_i32 (i : Int) : Option ReservationStatus :=
  if i = 0 then some .Unknown
  else if i = 1 then some .Pending
  else if i = 2 then some .Confirmed
  else if i = 3 then some .Blocked
  else none

/-- The integer discriminant of a status (the as-i32 cast). -/
def ReservationStatus.toI32 : ReservationStatus → Int
  | .Unknown => 0
  | .Pending => 1
  | .Confirmed => 2
  | .Blocked => 3

/-- Display for ReservationStatus
(src/abi/src/types/reservation_status.rs). -/
def ReservationStatus.toText : ReservationStatus → String
  | .Unknown => "unknown"
  | .Pending => "pending"
  | .Blocked => "blocked"
  | .Confirmed => "confirmed"

/-- The sqlx row status enum RsvpStatus (the stored
rsvp.reservation_status value). -/
inductive RsvpStatus where
  | Unknown
  | Pending
  | Confirmed
  | Blocked
deriving DecidableEq

/-- From RsvpStatus for ReservationStatus
(src/abi/src/types/reservation_status.rs): constructor-wise identity. -/
def ReservationStatus.ofRsvp : RsvpStatus → ReservationStatus
  | .Unknown => .Unknown
  | .Pending => .Pending
  | .Confirmed => .Confirmed
  | .Blocked => .Blocked

/-- The manager binds the Display text of a ReservationStatus and the
store casts that text back to its status enum; the composition is this
constructor-wise identity. -/
def ReservationStatus.toDb : ReservationStatus → RsvpStatus
  | .Unknown => .Unknown
  | .Pending => .Pending
  | .Confirmed => .Confirmed
  | .Blocked => .Blocked

/-- The prost generated Reservation message (field set as used by
src/abi and src/reservation): status is the raw protobuf integer. -/
structure Reservation where
  id : String
  resource_id : String
  status : Int
  user_id : String
  end_time : Option Timestamp
  start_time : Option Timestamp
  note : String
deriving DecidableEq

/-- to_datetime of src/abi/src/utils.rs: Utc.timestamp(seconds, 0) of the
seconds field when the timestamp is present (the nanos field is dropped),
InvalidTime when absent. -/
def to_datetime : Option Timestamp → Except Error DateTime
  | some t => .ok ⟨t.seconds, 0⟩
  | none => .error .InvalidTime

/-- chrono DateTime order: by instant. -/
def DateTime.le (a b : DateTime) : Bool :=
  decide (a.secs < b.secs) || (decide (a.secs = b.secs) && decide (a.nanos ≤ b.nanos))

/-- Reservation::validate: empty user id, then empty resource id, then
missing bounds, then start at or after end (on the to_datetime values,
whose subsecond part is zero), in that order; otherwise Ok.  The final
catch-all arm models the unwraps of the two to_datetime calls, which
cannot fail after the isNone guard. -/
def Reservation.validate (r : Reservation) : Except Error Unit :=
  if r.user_id = "" then .error (.InvalidUserId "")
  else if r.resource_id = "" then .error (.InvalidResourceId "")
  else if r.start_time.isNone || r.end_time.isNone then .error .InvalidTime
  else
    match to_datetime r.start_time, to_datetime r.end_time with
    | .ok start, .ok stop =>
      if DateTime.le stop start then .error .InvalidTime else .ok ()
    | _, _ => .error .InvalidTime

/-- Reservation::get_timespan: the half-open range of the two unwrapped
bounds; none models the unwrap panic on a missing bound (callers invoke
this only after validate). -/
def Reservation.get_timespan (r : Reservation) : Option (DateTime × DateTime) :=
  match to_datetime r.start_time, to_datetime r.end_time with
  | .ok a, .ok b => some (a, b)
  | _, _ => none

/-! ## The backing store and the manager (src/reservation/src/manager.rs)

The store is an external collaborator: the spec treats it as a relational
store holding one reservations table, with single-statement insert,
conditional update, unconditional update, delete and select by id, plus a
native range-overlap exclusion constraint per resource that rejects an
insert with a recognizable 23P01 error carrying a diagnostic detail.
The store operations below are modelled from the spec as pure
transformations of the row list; id generation is an oracle stream of
fresh id strings. -/

/-- One stored reservation row: the assigned id (canonical uuid string
form), user and resource ids, the half-open timespan in whole epoch
seconds (every timespan this manager stores has whole-second bounds),
the note and the status enum. -/
structure Row where
  id : String
  user_id : String
  resource_id : String
  tstart : Int
  tend : Int
  note : String
  status : RsvpStatus
deriving DecidableEq

/-- The store state: the stored rows plus the oracle stream of ids the
store will assign to inserts, cursored by clock. -/
structure Db where
  rows : List Row
  fresh : Nat → String
  clock : Nat

/-- ASCII hex digit. -/
def isHexChar (c : Char) : Bool :=
  c.isDigit || ('a' ≤ c && c ≤ 'f') || ('A' ≤ c && c ≤ 'F')

/-- Hyphenated uuid shape: 36 characters with hyphens at positions 8, 13,
18 and 23 and hex digits elsewhere. -/
def uuidHyphenated (cs : List Char) : Bool :=
  (cs.length == 36) && cs.enum.all (fun p =>
    if p.1 = 8 ∨ p.1 = 13 ∨ p.1 = 18 ∨ p.1 = 23 then p.2 == '-' else isHexChar p.2)

/-- Simple uuid shape: 32 hex digits. -/
def uuidSimple (cs : List Char) : Bool := (cs.length == 32) && cs.all isHexChar

/-- Insert the canonical hyphens into a 32-digit simple form. -/
def uuidHyphenate (cs : List Char) : List Char :=
  cs.take 8 ++ '-' :: (cs.drop 8).take 4 ++ '-' :: (cs.drop 12).take 4 ++
    '-' :: (cs.drop 16).take 4 ++ '-' :: cs.drop 20

/-- Modelled from the spec: uuid parse_str — accepts the simple, the
hyphenated, the braced hyphenated and the urn:uuid: forms, rejecting
everything else; returns the canonical lowercase hyphenated rendering,
which is also what uuid to_string produces for the parsed value. -/
def uuidParse (s : String) : Option String :=
  let cs := s.data
  let core : Option (List Char) :=
    if cs.length = 45 then
      if (cs.take 9).asString = "urn:uuid:" then some (cs.drop 9) else none
    else if cs.length = 38 then
      if cs.head? = some '{' ∧ cs.getLast? = some '}' then
        some ((cs.drop 1).take 36)
      else none
    else some cs
  match core with
  | none => none
  | some c2 =>
    if uuidHyphenated c2 then some (String.mk (c2.map Char.toLower))
    else if uuidSimple c2 then some (String.mk ((uuidHyphenate c2).map Char.toLower))
    else none

/-- Zero-padded two-digit decimal text. -/
def pad2 (n : Nat) : String :=
  if n < 10 then "0" ++ toString n else toString n

/-- Modelled from the spec: the text form the store gives a stored
timestamp inside a conflict diagnostic (UTC, whole seconds, offset
rendered as +00). -/
def pgTimestampText (t : Int) : String :=
  match civilFromDays (t / 86400) with
  | (y, mo, dy) =>
    let sod := (t % 86400).toNat
    toString y ++ "-" ++ pad2 mo ++ "-" ++ pad2 dy ++ " " ++
      pad2 (sod / 3600) ++ ":" ++ pad2 (sod % 3600 / 60) ++ ":" ++ pad2 (sod % 60) ++ "+00"

/-- Modelled from the spec: the diagnostic detail the store attaches to a
reservations exclusion violation. -/
def pgConflictDetail (rid : String) (ns ne os oe : Int) : String :=
  "Key (resource_id, timespan)=(" ++ rid ++ ", [\"" ++ pgTimestampText ns ++ "\",\"" ++
    pgTimestampText ne ++ "\")) conflicts with existing key (resource_id, timespan)=(" ++
    rid ++ ", [\"" ++ pgTimestampText os ++ "\",\"" ++ pgTimestampText oe ++ "\"))."

/-- Modelled from the spec: INSERT under the exclusion constraint — when
the new timespan overlaps an existing reservation of the same resource,
the store rejects the insert with the 23P01 database error carrying the
diagnostic detail; otherwise the row is appended under a freshly
generated id, which is returned. -/
def dbInsert (db : Db) (user_id resource_id : String) (ts te : Int)
    (note : String) (status : RsvpStatus) : Except SqlxError (String × Db) :=
  match db.rows.find? (fun r =>
      r.resource_id == resource_id && decide (r.tstart < te) && decide (ts < r.tend)) with
  | some old => .error (.Database ⟨"23P01", some "rsvp", some "reservations",
      some (pgConflictDetail resource_id ts te old.tstart old.tend)⟩)
  | none =>
    let newId := db.fresh db.clock
    .ok (newId,
      ⟨db.rows ++ [⟨newId, user_id, resource_id, ts, te, note, status⟩],
        db.fresh, db.clock + 1⟩)

/-- Modelled from the spec: the conditional UPDATE of change_status — set
status to confirmed on the rows with the given id and status pending;
the returned row (for fetch_one) is the first updated one, if any. -/
def dbChangeStatus (rows : List Row) (u : String) : Option Row × List Row :=
  ((rows.find? (fun r => r.id == u && r.status == RsvpStatus.Pending)).map
      (fun r => { r with status := RsvpStatus.Confirmed }),
    rows.map (fun r =>
      if r.id == u && r.status == RsvpStatus.Pending
      then { r with status := RsvpStatus.Confirmed } else r))

/-- Modelled from the spec: the unconditional UPDATE of update_note. -/
def dbUpdateNote (rows : List Row) (u : String) (note : String) : Option Row × List Row :=
  ((rows.find? (fun r => r.id == u)).map (fun r => { r with note := note }),
    rows.map (fun r => if r.id == u then { r with note := note } else r))

/-- Modelled from the spec: DELETE by id. -/
def dbDelete (rows : List Row) (u : String) : List Row :=
  rows.filter (fun r => !(r.id == u))

/-- Modelled from the spec: SELECT by id (fetch_one takes the first
matching row, if any). -/
def dbGet (rows : List Row) (u : String) : Option Row :=
  rows.find? (fun r => r.id == u)

/-- Result of one manager operation: a panic, a domain error, or a
value. -/
inductive MRes (α : Type) where
  | panicked : MRes α
  | err : Error → MRes α
  | ok : α → MRes α
deriving DecidableEq

/-- FromRow for Reservation (src/abi/src/types/reservation.rs): rebuild
the protobuf timestamps from the stored bounds through to_timestamp (the
stored range is always bounded, so the assert passes), map the stored
status enum through From and the as-i32 cast, and render the id. -/
def Reservation.from_row (row : Row) : Panics Reservation :=
  match to_timestamp ⟨row.tstart, 0⟩, to_timestamp ⟨row.tend, 0⟩ with
  | .ok st, .ok en => .ok
    { id := row.id
      resource_id := row.resource_id
      status := (ReservationStatus.ofRsvp row.status).toI32
      user_id := row.user_id
      end_time := some en
      start_time := some st
      note := row.note }
  | _, _ => .panicked

/-- ReservationManager::reserve: validate, resolve the status integer
(unknown integers default to Pending), take the validated timespan, and
insert; a store error goes through the From translation; on success the
argument is returned with only its id replaced by the assigned one. -/
def reserve (db : Db) (rsvp : Reservation) : MRes Reservation × Db :=
  match rsvp.validate with
  | .error e => (.err e, db)
  | .ok _ =>
    let status := (ReservationStatus.from_i32 rsvp.status).getD .Pending
    match rsvp.get_timespan with
    | none => (.panicked, db)
    | some (a, b) =>
      match dbInsert db rsvp.user_id rsvp.resource_id a.secs b.secs rsvp.note status.toDb with
      | .error e =>
        match Error.fromSqlx e with
        | .panicked => (.panicked, db)
        | .ok e2 => (.err e2, db)
      | .ok (newId, db2) => (.ok { rsvp with id := newId }, db2)

/-- ReservationManager::change_status: parse the id (failing
InvalidReservationId with the original string before any store call),
then run the conditional update; no matching row is sqlx RowNotFound,
which the From translation maps to NotFound. -/
def change_status (db : Db) (id : String) : MRes Reservation × Db :=
  match uuidParse id with
  | none => (.err (.InvalidReservationId id), db)
  | some u =>
    match dbChangeStatus db.rows u with
    | (none, rows2) =>
      match Error.fromSqlx .RowNotFound with
      | .panicked => (.panicked, ⟨rows2, db.fresh, db.clock⟩)
      | .ok e => (.err e, ⟨rows2, db.fresh, db.clock⟩)
    | (some row, rows2) =>
      match Reservation.from_row row with
      | .panicked => (.panicked, ⟨rows2, db.fresh, db.clock⟩)
      | .ok rsvp => (.ok rsvp, ⟨rows2, db.fresh, db.clock⟩)

/-- ReservationManager::update_note: parse the id, then the unconditional
note update; an absent id is RowNotFound, hence NotFound. -/
def update_note (db : Db) (id : String) (note : String) : MRes Reservation × Db :=
  match uuidParse id with
  | none => (.err (.InvalidReservationId id), db)
  | some u =>
    match dbUpdateNote db.rows u note with
    | (none, rows2) =>
      match Error.fromSqlx .RowNotFound with
      | .panicked => (.panicked, ⟨rows2, db.fresh, db.clock⟩)
      | .ok e => (.err e, ⟨rows2, db.fresh, db.clock⟩)
    | (some row, rows2) =>
      match Reservation.from_row row with
      | .panicked => (.panicked, ⟨rows2, db.fresh, db.clock⟩)
      | .ok rsvp => (.ok rsvp, ⟨rows2, db.fresh, db.clock⟩)

/-- ReservationManager::delete: parse the id, then the unconditional
delete; the result is ignored, so an absent id is not an error. -/
def delete (db : Db) (id : String) : MRes Unit × Db :=
  match uuidParse id with
  | none => (.err (.InvalidReservationId id), db)
  | some u => (.ok (), ⟨dbDelete db.rows u, db.fresh, db.clock⟩)

/-- ReservationManager::get: parse the id, then select by id; an absent
id is RowNotFound, hence NotFound. -/
def get (db : Db) (id : String) : MRes Reservation × Db :=
  match uuidParse id with
  | none => (.err (.InvalidReservationId id), db)
  | some u =>
    match dbGet db.rows u with
    | none =>
      match Error.fromSqlx .RowNotFound with
      | .panicked => (.panicked, db)
      | .ok e => (.err e, db)
    | some row =>
      match Reservation.from_row row with
      | .panicked => (.panicked, db)
      | .ok rsvp => (.ok rsvp, db)

deriving instance DecidableEq for Except

/-- Map over a possibly-panicking result. -/
def Panics.map (f : α → β) : Panics α → Panics β
  | .panicked => .panicked
  | .ok a => .ok (f a)

/-- The instant a protobuf Timestamp denotes, in nanoseconds since the
Unix epoch: its seconds field scaled, plus its subsecond nanos field. -/
def Timestamp.instant (t : Timestamp) : Int := t.seconds * 1000000000 + t.nanos

/-- reserve followed by get with the assigned id (the round-trip the spec
describes); the store state is threaded through. -/
def reserveThenGet (db : Db) (r : Reservation) : MRes Reservation :=
  match reserve db r with
  | (.ok rr, db1) => (get db1 rr.id).1
  | (.err e, _) => .err e
  | (.panicked, _) => .panicked

/-- The exact diagnostic of the fixed literal-string test. -/
def errMsgLiteral : String :=
  "Key (resource_id, timespan)=(ocean-view-room-713, [\"2022-12-26 22:00:00+00\",\"2022-12-30 19:00:00+00\")) conflicts with existing key (resource_id, timespan)=(ocean-view-room-713, [\"2022-12-25 22:00:00+00\",\"2022-12-28 19:00:00+00\"))."

/-- A diagnostic whose two clauses match the regex and whose timespan
parses, but whose key names are rid/timespan instead of
resource_id/timespan. -/
def diagMissingResourceKey : String :=
  "Key (rid, timespan)=(r1, [\"2022-12-26 22:00:00+00\",\"2022-12-30 19:00:00+00\")) conflicts with existing key (rid, timespan)=(r1, [\"2022-12-25 22:00:00+00\",\"2022-12-28 19:00:00+00\"))."

/-- A canonical uuid string. -/
def uuid0 : String := "00000000-0000-4000-8000-000000000000"

/-- An empty store whose id oracle yields uuid0. -/
def db0 : Db := ⟨[], fun _ => uuid0, 0⟩

/-- A store holding one pending reservation under uuid0. -/
def dbPending : Db := ⟨[⟨uuid0, "u1", "res1", 0, 10, "n", .Pending⟩], fun _ => uuid0, 0⟩

/-- A valid reservation whose status integer (7) has no corresponding
enum value. -/
def rStatus7 : Reservation :=
  { id := "", resource_id := "res1", status := 7, user_id := "u1",
    end_time := some ⟨100, 0⟩, start_time := some ⟨50, 0⟩, note := "hello" }

/-- A valid pending reservation. -/
def rPending : Reservation :=
  { id := "", resource_id := "res1", status := 1, user_id := "u1",
    end_time := some ⟨100, 0⟩, start_time := some ⟨50, 0⟩, note := "hello" }

/-! ## Calendar lemmas -/

theorem gN_mono {a b : Nat} (h : a ≤ b) : gN a ≤ gN b := by
  unfold gN
  omega

set_option maxRecDepth 2000 in
set_option maxHeartbeats 1000000 in
theorem gN_yearBounds : ∀ y < 400, 365 * y ≤ gN (yearStartN y) ∧
    gN (yearStartN y + yearLenN y - 1) < 365 * y + 365 := by decide

set_option maxRecDepth 2000 in
set_option maxHeartbeats 1000000 in
theorem yearStartN_step : ∀ y < 399, yearStartN (y + 1) = yearStartN y + yearLenN y := by
  decide

theorem yearStartN_cycleEnd : yearStartN 399 + yearLenN 399 = 146097 := by decide

/-- Every day-of-era below the end of year y lies in some year at or below
y. -/
theorem yearCover : ∀ y ≤ 399, ∀ doe < yearStartN y + yearLenN y,
    ∃ y2, y2 ≤ y ∧ yearStartN y2 ≤ doe ∧ doe < yearStartN y2 + yearLenN y2 := by
  intro y
  induction y with
  | zero =>
    intro _ doe hdoe
    exact ⟨0, Nat.le_refl 0, by simp [yearStartN], hdoe⟩
  | succ n ih =>
    intro hy doe hdoe
    by_cases hge : yearStartN (n + 1) ≤ doe
    · exact ⟨n + 1, Nat.le_refl _, hge, hdoe⟩
    · have hn : n ≤ 399 := Nat.le_of_succ_le hy
      have hstep : yearStartN (n + 1) = yearStartN n + yearLenN n :=
        yearStartN_step n (by omega)
      obtain ⟨y2, h1, h2, h3⟩ := ih hn doe (by omega)
      exact ⟨y2, Nat.le_succ_of_le h1, h2, h3⟩

/-- The year-of-era locator finds the bracketing year of any day-of-era in
the cycle. -/
theorem yearLocate : ∀ doe < 146097,
    gN doe / 365 < 400 ∧ yearStartN (gN doe / 365) ≤ doe ∧
    doe < yearStartN (gN doe / 365) + yearLenN (gN doe / 365) := by
  intro doe hdoe
  have hcov := yearCover 399 (Nat.le_refl _) doe (by rw [yearStartN_cycleEnd]; exact hdoe)
  obtain ⟨y, hy399, hlo, hhi⟩ := hcov
  have hy400 : y < 400 := by omega
  have hb := gN_yearBounds y hy400
  have h1 : 365 * y ≤ gN doe := Nat.le_trans hb.1 (gN_mono hlo)
  have h2 : gN doe < 365 * y + 365 := by
    have h3 : gN doe ≤ gN (yearStartN y + yearLenN y - 1) := gN_mono (by omega)
    omega
  have hq : gN doe / 365 = y := by omega
  rw [hq]
  exact ⟨hy400, hlo, hhi⟩

set_option maxRecDepth 2000 in
set_option maxHeartbeats 1000000 in
theorem monthOk_true : ∀ doy < 366, monthOk true doy = true := by decide

set_option maxRecDepth 2000 in
set_option maxHeartbeats 1000000 in
theorem monthOk_false : ∀ doy < 365, monthOk false doy = true := by decide

theorem daysInMonth_ne_two {a b : Bool} {m : Nat} (h : m ≠ 2) :
    daysInMonth a m = daysInMonth b m := by
  simp [daysInMonth, h]

/-- Month-level extraction facts in Prop form. -/
theorem monthProps (lp : Bool) (doy mp d m : Nat)
    (h : doy < 365 + (if lp then 1 else 0))
    (hmp : mp = (5 * doy + 2) / 153) (hd : d = doy - (153 * mp + 2) / 5 + 1)
    (hm : m = if mp < 10 then mp + 3 else mp - 9) :
    (if 3 ≤ m then m - 3 else m + 9) = mp ∧ (153 * mp + 2) / 5 + (d - 1) = doy ∧
    1 ≤ m ∧ m ≤ 12 ∧ 1 ≤ d ∧ d ≤ daysInMonth lp m := by
  subst hmp
  subst hd
  subst hm
  have hok : monthOk lp doy = true := by
    cases lp with
    | true => exact monthOk_true doy (by simpa using h)
    | false => exact monthOk_false doy (by simpa using h)
  rw [monthOk] at hok
  simp only [Bool.and_eq_true, beq_iff_eq, decide_eq_true_eq] at hok
  exact ⟨hok.1.1.1.1.1, hok.1.1.1.1.2, hok.1.1.1.2, hok.1.1.2, hok.1.2, hok.2⟩

/-- Soundness of the day-of-era split: the rebuilt day-of-era matches, the
year-of-era is in range and the month and day are valid civil fields of
the corresponding civil year (year-of-era + 1 for January and February
dates). -/
theorem doeSplit_sound (doe : Nat) (hdoe : doe < 146097) (yoe m d : Nat)
    (hsplit : doeSplit doe = (yoe, m, d)) :
    doeJoin yoe m d = doe ∧ yoe < 400 ∧ 1 ≤ m ∧ m ≤ 12 ∧ 1 ≤ d ∧
    d ≤ daysInMonth (leapN ((yoe + (if m ≤ 2 then 1 else 0)) % 400)) m := by
  obtain ⟨hy400, hlo, hhi⟩ := yearLocate doe hdoe
  simp only [doeSplit, Prod.mk.injEq] at hsplit
  obtain ⟨hy, hm, hd⟩ := hsplit
  subst hy
  subst hm
  subst hd
  have hdoy : doe - yearStartN (gN doe / 365) <
      365 + (if leapN ((gN doe / 365 + 1) % 400) then 1 else 0) := by
    rw [yearLenN] at hhi
    cases hL : leapN ((gN doe / 365 + 1) % 400) <;> rw [hL] at hhi <;> simp at hhi ⊢ <;> omega
  have hmo := monthProps (leapN ((gN doe / 365 + 1) % 400))
    (doe - yearStartN (gN doe / 365)) _ _ _ hdoy rfl rfl rfl
  obtain ⟨hmp, hjoin, hm1, hm12, hd1, hdval⟩ := hmo
  refine ⟨?_, hy400, hm1, hm12, hd1, ?_⟩
  · rw [doeJoin, hmp, hjoin]
    omega
  · by_cases h2 : (if (5 * (doe - yearStartN (gN doe / 365)) + 2) / 153 < 10
        then (5 * (doe - yearStartN (gN doe / 365)) + 2) / 153 + 3
        else (5 * (doe - yearStartN (gN doe / 365)) + 2) / 153 - 9) ≤ 2
    · rw [if_pos h2]
      exact hdval
    · rw [if_neg h2]
      rw [daysInMonth_ne_two (by omega)]
      exact hdval

/-- Leap-ness is 400-periodic, so the integer-year test agrees with the
year-of-era test. -/
theorem leapZ_eq (era : Int) (k : Nat) :
    leapZ (era * 400 + (k : Int)) = leapN (k % 400) := by
  unfold leapZ leapN
  rw [decide_eq_decide.mpr
    (show (era * 400 + (k : Int)) % 4 = 0 ↔ k % 400 % 4 = 0 by omega)]
  rw [decide_eq_decide.mpr
    (show ¬(era * 400 + (k : Int)) % 100 = 0 ↔ ¬k % 400 % 100 = 0 by omega)]
  rw [decide_eq_decide.mpr
    (show (era * 400 + (k : Int)) % 400 = 0 ↔ k % 400 % 400 = 0 by omega)]

/-- Splitting any day count into civil fields and rebuilding it is the
identity, and the resulting fields are a valid calendar date. -/
theorem civil_roundtrip (z : Int) (y : Int) (m d : Nat)
    (h : civilFromDays z = (y, m, d)) :
    daysFromCivil y m d = z ∧ 1 ≤ m ∧ m ≤ 12 ∧ 1 ≤ d ∧
    d ≤ daysInMonth (leapZ y) m := by
  have hmodlt : (z + 719468) % 146097 < 146097 := by omega
  have hmodnn : 0 ≤ (z + 719468) % 146097 := by omega
  have hdivmod : 146097 * ((z + 719468) / 146097) + (z + 719468) % 146097
      = z + 719468 := by omega
  set era := (z + 719468) / 146097 with hera
  set doe := ((z + 719468) % 146097).toNat with hdoe
  have hdoeZ : ((doe : Nat) : Int) = (z + 719468) % 146097 := by omega
  have hdoelt : doe < 146097 := by omega
  rcases hsp : doeSplit doe with ⟨yoe, m2, d2⟩
  have hcf : civilFromDays z = (era * 400 + yoe + (if m2 ≤ 2 then 1 else 0), m2, d2) := by
    rw [civilFromDays]
    rw [← hera, ← hdoe, hsp]
  rw [h] at hcf
  simp only [Prod.mk.injEq] at hcf
  obtain ⟨hy, hm, hd⟩ := hcf
  obtain ⟨hjoin, hyoe400, hm1, hm12, hd1, hdval⟩ := doeSplit_sound doe hdoelt yoe m2 d2 hsp
  subst hm
  subst hd
  constructor
  · simp only [daysFromCivil]
    have hy2 : (if m ≤ 2 then y - 1 else y) = era * 400 + (yoe : Int) := by
      by_cases hle : m ≤ 2 <;> simp only [hle, if_true, if_false] at hy ⊢ <;> omega
    rw [hy2]
    have he : (era * 400 + (yoe : Int)) / 400 = era := by omega
    have hm400 : ((era * 400 + (yoe : Int)) % 400).toNat = yoe := by omega
    rw [he, hm400, hjoin]
    omega
  · refine ⟨hm1, hm12, hd1, ?_⟩
    have hyk : y = era * 400 + ((yoe + if m ≤ 2 then 1 else 0 : Nat) : Int) := by
      by_cases hle : m ≤ 2 <;> simp only [hle, if_true, if_false] at hy ⊢ <;>
        push_cast <;> omega
    rw [hyk, leapZ_eq]
    exact hdval

/-- to_timestamp never panics and keeps exactly the whole-second part of
the instant: the produced protobuf Timestamp has the same epoch seconds
and zero nanos. -/
theorem to_timestamp_eq (dt : DateTime) : to_timestamp dt = .ok ⟨dt.secs, 0⟩ := by
  obtain ⟨secs, nanos⟩ := dt
  simp only [to_timestamp]
  rcases hc : civilFromDays (secs / 86400) with ⟨y, m, d⟩
  obtain ⟨hback, hm1, hm12, hd1, hdval⟩ := civil_roundtrip _ y m d hc
  have hsecs : secs / 86400 * 86400 +
      (((secs % 86400).toNat / 3600 * 3600 + (secs % 86400).toNat % 3600 / 60 * 60 +
        (secs % 86400).toNat % 60 : Nat) : Int) = secs := by
    omega
  have hval : timestampDateTime y m d ((secs % 86400).toNat / 3600)
      ((secs % 86400).toNat % 3600 / 60) ((secs % 86400).toNat % 60)
      = some ⟨secs, 0⟩ := by
    rw [timestampDateTime, if_pos]
    · rw [hback, hsecs]
    · exact ⟨hm1, hm12, hd1, hdval, by omega, by omega, by omega⟩
  simp only [hc, hval]

/-! ## Claim C1 -/

set_option maxRecDepth 100000 in
/-- C1 (code bug): parsing a store diagnostic into ReservationConflictInfo
is claimed total and never hard-failing; the code violates this.  On a
diagnostic whose two clauses match the regex and whose timespan text
parses, but whose captured key names are not resource_id, the window
conversion reaches the unwrap of a missing resource_id key and panics
instead of degrading to Unparsed. -/
theorem c1_parse_panics_on_missing_resource_key :
    ReservationConflictInfo.ofString diagMissingResourceKey = .panicked := by
  decide

/-! ## Claim C3 -/

set_option maxRecDepth 100000 in
/-- C3: the fixed literal diagnostic parses to Parsed with the first
regex match as the new window and the second as the old window, carrying
the resource id ocean-view-room-713 and the four UTC instants; and a
timestamp written with a non-zero UTC offset is normalized to the same
UTC instant. -/
theorem c3_literal_diagnostic_parses :
    ReservationConflictInfo.ofString errMsgLiteral = .ok (.Parsed
      ⟨⟨"ocean-view-room-713", utcInstant 2022 12 26 22 0 0, utcInstant 2022 12 30 19 0 0⟩,
       ⟨"ocean-view-room-713", utcInstant 2022 12 25 22 0 0, utcInstant 2022 12 28 19 0 0⟩⟩) ∧
    parse_date "2022-12-26 15:00:00-0700" = .ok (utcInstant 2022 12 26 22 0 0) := by
  constructor
  · decide
  · decide

/-! ## Claim C4 -/

/-- C4: whenever the number of regex matches of the clause pattern in a
diagnostic string is not exactly two, the parse returns Unparsed carrying
the original string verbatim. -/
theorem c4_unmatched_count_preserves_raw (s : String)
    (h : (scanCaptures s.length s.data).length ≠ 2) :
    ReservationConflictInfo.ofString s = .ok (.Unparsed s) := by
  have hlen : ((scanCaptures s.length s.data).map capsToMap).length ≠ 2 := by
    rw [List.length_map]
    exact h
  unfold ReservationConflictInfo.ofString ReservationConflict.ofString ParseInfo.ofString
  rcases hm : (scanCaptures s.length s.data).map capsToMap with _ | ⟨m1, _ | ⟨m2, ml⟩⟩
  · rfl
  · rfl
  · rcases ml with _ | ⟨m3, ml2⟩
    · rw [hm] at hlen
      simp at hlen
    · rfl

/-- C4 witness: a concrete string with zero matches falls back to
Unparsed of itself. -/
theorem c4_witness :
    (scanCaptures "hello".length "hello".data).length ≠ 2 ∧
    ReservationConflictInfo.ofString "hello" = .ok (.Unparsed "hello") :=
  ⟨by decide, c4_unmatched_count_preserves_raw "hello" (by decide)⟩

/-! ## Claim C2 -/

/-- C2 (amended): validate fails InvalidUserId exactly on an empty user
id; otherwise fails InvalidResourceId exactly on an empty resource id;
otherwise fails InvalidTime exactly when a bound is absent or the end is
at or before the start at one-second resolution (validate compares the
to_datetime values, which drop the subsecond nanos field); otherwise it
returns Ok.  validate is a pure function of the reservation value, so it
performs no I/O, and the equivalences encode the check order. -/
theorem c2_validate_characterization (r : Reservation) :
    (r.validate = .error (.InvalidUserId "") ↔ r.user_id = "") ∧
    (r.validate = .error (.InvalidResourceId "") ↔ r.user_id ≠ "" ∧ r.resource_id = "") ∧
    (r.validate = .error .InvalidTime ↔ r.user_id ≠ "" ∧ r.resource_id ≠ "" ∧
      ∀ st et, r.start_time = some st → r.end_time = some et → et.seconds ≤ st.seconds) ∧
    (r.validate = .ok () ↔ r.user_id ≠ "" ∧ r.resource_id ≠ "" ∧
      ∃ st et, r.start_time = some st ∧ r.end_time = some et ∧ st.seconds < et.seconds) := by
  rcases hst : r.start_time with _ | st <;> rcases het : r.end_time with _ | et <;>
    by_cases hu : r.user_id = "" <;> by_cases hr : r.resource_id = "" <;>
    simp [Reservation.validate, hst, het, hu, hr, to_datetime, DateTime.le] <;>
    split_ifs <;> simp_all <;> omega

/-- C2 witness: the characterization applied to a concrete valid
reservation. -/
theorem c2_witness : rPending.validate = .ok () :=
  (c2_validate_characterization rPending).2.2.2.mpr
    ⟨by decide, by decide, ⟨50, 0⟩, ⟨100, 0⟩, rfl, rfl, by decide⟩

/-- C2 counterexample: a reservation whose start instant is strictly
before its end instant (they differ only below one second) is still
rejected with InvalidTime, because validate compares the to_datetime
values, which drop the nanos field; so the claimed fails-InvalidTime
only-if start at-or-after end is false. -/
theorem c2_subsecond_counterexample :
    Reservation.validate
      { id := "", resource_id := "r", status := 1, user_id := "u",
        end_time := some ⟨0, 2⟩, start_time := some ⟨0, 1⟩, note := "" } =
      .error .InvalidTime ∧
    Timestamp.instant ⟨0, 1⟩ < Timestamp.instant ⟨0, 2⟩ := by
  decide

/-! ## Claim C5 -/

/-- C5: the store-error translation — row-not-found maps to NotFound; a
database error with the reservations exclusion signature (code 23P01,
schema rsvp, table reservations) and a detail text maps to
ConflictReservation carrying the parse of that detail; every database
error without the signature and every other sqlx error maps to DbError
wrapping the original error. -/
theorem c5_store_error_translation :
    Error.fromSqlx .RowNotFound = .ok .NotFound ∧
    (∀ e d, e.code = "23P01" → e.schema = some "rsvp" → e.table = some "reservations" →
      e.detail = some d →
      Error.fromSqlx (.Database e) =
        (ReservationConflictInfo.ofString d).map Error.ConflictReservation) ∧
    (∀ e, ¬(e.code = "23P01" ∧ e.schema = some "rsvp" ∧ e.table = some "reservations") →
      Error.fromSqlx (.Database e) = .ok (.DbError (.Database e))) ∧
    (∀ t, Error.fromSqlx (.Other t) = .ok (.DbError (.Other t))) := by
  refine ⟨rfl, ?_, ?_, fun t => rfl⟩
  · intro e d h1 h2 h3 h4
    have hred : Error.fromSqlx (.Database e) =
        (match ReservationConflictInfo.ofString d with
          | Panics.panicked => Panics.panicked
          | Panics.ok info => Panics.ok (Error.ConflictReservation info)) := by
      rw [Error.fromSqlx, if_pos (by simp [h1, h2, h3]), h4]
    rw [hred]
    rcases ReservationConflictInfo.ofString d with _ | info <;> rfl
  · intro e h
    rw [Error.fromSqlx]
    rw [if_neg]
    simp only [Bool.and_eq_true, beq_iff_eq, not_and]
    intro h1 h2
    exact h ⟨h1.1, h1.2, h2⟩

/-- C5 witness: the translation applied to concrete store errors. -/
theorem c5_witness :
    Error.fromSqlx (.Database ⟨"23P01", some "rsvp", some "reservations", some "x"⟩) =
      .ok (.ConflictReservation (.Unparsed "x")) ∧
    Error.fromSqlx (.Database ⟨"23505", some "rsvp", some "reservations", none⟩) =
      .ok (.DbError (.Database ⟨"23505", some "rsvp", some "reservations", none⟩)) :=
  ⟨(c5_store_error_translation.2.1 ⟨"23P01", some "rsvp", some "reservations", some "x"⟩
      "x" rfl rfl rfl rfl).trans (by decide),
   c5_store_error_translation.2.2.1 ⟨"23505", some "rsvp", some "reservations", none⟩
      (by simp)⟩

/-! ## Claim C6 -/

/-- C6: the hand-written error equality — any two DbError values compare
equal regardless of payload; ConflictReservation and the three invalid-id
variants compare by payload; NotFound, InvalidTime and Unknown compare
equal to themselves; and values of distinct kinds never compare equal. -/
theorem c6_error_equality :
    (∀ e1 e2, Error.peq (.DbError e1) (.DbError e2) = true) ∧
    (∀ v1 v2, Error.peq (.ConflictReservation v1) (.ConflictReservation v2) = true ↔ v1 = v2) ∧
    (∀ s1 s2, Error.peq (.InvalidReservationId s1) (.InvalidReservationId s2) = true ↔ s1 = s2) ∧
    (∀ s1 s2, Error.peq (.InvalidUserId s1) (.InvalidUserId s2) = true ↔ s1 = s2) ∧
    (∀ s1 s2, Error.peq (.InvalidResourceId s1) (.InvalidResourceId s2) = true ↔ s1 = s2) ∧
    (Error.peq .NotFound .NotFound = true ∧ Error.peq .InvalidTime .InvalidTime = true ∧
      Error.peq .Unknown .Unknown = true) ∧
    (∀ a b, a.kindIdx ≠ b.kindIdx → Error.peq a b = false) := by
  refine ⟨fun e1 e2 => rfl, ?_, ?_, ?_, ?_, ⟨rfl, rfl, rfl⟩, ?_⟩
  · intro v1 v2
    simp [Error.peq]
  · intro s1 s2
    simp [Error.peq]
  · intro s1 s2
    simp [Error.peq]
  · intro s1 s2
    simp [Error.peq]
  · intro a b h
    cases a <;> cases b <;> simp_all [Error.peq, Error.kindIdx]

/-- C6 witness: concrete instances of the equality semantics. -/
theorem c6_witness :
    Error.peq (.DbError .RowNotFound) (.DbError (.Other "x")) = true ∧
    Error.peq .NotFound .Unknown = false :=
  ⟨c6_error_equality.1 .RowNotFound (.Other "x"),
   c6_error_equality.2.2.2.2.2.2 .NotFound .Unknown (by decide)⟩

/-! ## Claims about the manager operations -/

/-- A map that fixes every element of a list is the identity on it. -/
theorem list_map_id_of {α : Type} (l : List α) (f : α → α) (h : ∀ x ∈ l, f x = x) :
    l.map f = l := by
  induction l with
  | nil => rfl
  | cons a t ih =>
    simp only [List.map_cons]
    rw [h a (by simp), ih (fun x hx => h x (by simp [hx]))]

/-- After the conditional update, no row with the given id is still
pending. -/
theorem changed_rows_no_pending (rows : List Row) (u : String) :
    (rows.map (fun r =>
      if r.id == u && r.status == RsvpStatus.Pending
      then { r with status := RsvpStatus.Confirmed } else r)).find?
        (fun r => r.id == u && r.status == RsvpStatus.Pending) = none := by
  rw [List.find?_eq_none]
  intro x hx
  obtain ⟨r, hr, rfl⟩ := List.mem_map.mp hx
  by_cases hp : (r.id == u && r.status == RsvpStatus.Pending) = true
  · rw [if_pos hp]
    simp
  · rw [if_neg hp]
    simp_all

/-! ## Claim C7 -/

/-- C7 (store modelled from the spec): with a well-formed id, the single
conditional update of change_status succeeds exactly when a stored row
with that id is Pending — the first such row is returned Confirmed (the
integer 2) — and calling change_status again on the resulting store
yields NotFound; when no pending row with the id exists (already
Confirmed, Blocked, or nonexistent id), the call yields NotFound and the
store is unchanged. -/
theorem c7_change_status_pending_guard (db : Db) (id u : String)
    (hu : uuidParse id = some u) :
    (∀ row, db.rows.find? (fun r => r.id == u && r.status == RsvpStatus.Pending) = some row →
      ∃ db1,
        change_status db id =
          (.ok { id := row.id, resource_id := row.resource_id, status := 2,
                 user_id := row.user_id, end_time := some ⟨row.tend, 0⟩,
                 start_time := some ⟨row.tstart, 0⟩, note := row.note }, db1) ∧
        change_status db1 id = (.err .NotFound, db1)) ∧
    (db.rows.find? (fun r => r.id == u && r.status == RsvpStatus.Pending) = none →
      change_status db id = (.err .NotFound, db)) := by
  constructor
  · intro row hfind
    refine ⟨⟨db.rows.map (fun r =>
      if r.id == u && r.status == RsvpStatus.Pending
      then { r with status := RsvpStatus.Confirmed } else r), db.fresh, db.clock⟩, ?_, ?_⟩
    · have hdb : dbChangeStatus db.rows u =
          (some { row with status := RsvpStatus.Confirmed },
           db.rows.map (fun r => if r.id == u && r.status == RsvpStatus.Pending
             then { r with status := RsvpStatus.Confirmed } else r)) := by
        unfold dbChangeStatus
        rw [hfind]
        rfl
      rw [change_status, hu]
      simp only [hdb, Reservation.from_row, to_timestamp_eq]
      rfl
    · have hnp := changed_rows_no_pending db.rows u
      have hid : (db.rows.map (fun r => if r.id == u && r.status == RsvpStatus.Pending
            then { r with status := RsvpStatus.Confirmed } else r)).map
            (fun r => if r.id == u && r.status == RsvpStatus.Pending
            then { r with status := RsvpStatus.Confirmed } else r) =
          db.rows.map (fun r => if r.id == u && r.status == RsvpStatus.Pending
            then { r with status := RsvpStatus.Confirmed } else r) := by
        apply list_map_id_of
        intro x hx
        have hx2 := List.find?_eq_none.mp hnp x hx
        simp only [Bool.not_eq_true] at hx2
        rw [if_neg (by simp [hx2])]
      have hdb2 : dbChangeStatus (db.rows.map (fun r =>
            if r.id == u && r.status == RsvpStatus.Pending
            then { r with status := RsvpStatus.Confirmed } else r)) u =
          (none, db.rows.map (fun r => if r.id == u && r.status == RsvpStatus.Pending
            then { r with status := RsvpStatus.Confirmed } else r)) := by
        unfold dbChangeStatus
        rw [hnp, hid]
        rfl
      rw [change_status, hu]
      simp only [hdb2]
      rfl
  · intro hnone
    have hid : db.rows.map (fun r => if r.id == u && r.status == RsvpStatus.Pending
          then { r with status := RsvpStatus.Confirmed } else r) = db.rows := by
      apply list_map_id_of
      intro x hx
      have hx2 := List.find?_eq_none.mp hnone x hx
      simp only [Bool.not_eq_true] at hx2
      rw [if_neg (by simp [hx2])]
    have hdb0 : dbChangeStatus db.rows u = (none, db.rows) := by
      unfold dbChangeStatus
      rw [hnone, hid]
      rfl
    rw [change_status, hu]
    simp only [hdb0]
    rfl

/-- C7 witness: the guard applied to a concrete store holding one pending
reservation. -/
theorem c7_witness :
    ∃ db1,
      change_status dbPending uuid0 =
        (.ok { id := uuid0, resource_id := "res1", status := 2, user_id := "u1",
               end_time := some ⟨10, 0⟩, start_time := some ⟨0, 0⟩, note := "n" }, db1) ∧
      change_status db1 uuid0 = (.err .NotFound, db1) :=
  (c7_change_status_pending_guard dbPending uuid0 uuid0 (by decide)).1
    ⟨uuid0, "u1", "res1", 0, 10, "n", .Pending⟩ (by decide)

/-! ## Claim C8 -/

/-- C8 (store modelled from the spec): every id-taking manager operation
run on a malformed id fails with InvalidReservationId carrying the
original string, and the store state is returned unchanged — the parse
happens before any store call. -/
theorem c8_malformed_id_rejected_early (db : Db) (id note : String)
    (h : uuidParse id = none) :
    change_status db id = (.err (.InvalidReservationId id), db) ∧
    update_note db id note = (.err (.InvalidReservationId id), db) ∧
    delete db id = (.err (.InvalidReservationId id), db) ∧
    get db id = (.err (.InvalidReservationId id), db) := by
  rw [change_status, update_note, delete, get, h]
  exact ⟨rfl, rfl, rfl, rfl⟩

/-- C8 witness: the four operations on a concrete malformed id. -/
theorem c8_witness :
    change_status db0 "not-a-uuid" = (.err (.InvalidReservationId "not-a-uuid"), db0) ∧
    update_note db0 "not-a-uuid" "x" = (.err (.InvalidReservationId "not-a-uuid"), db0) ∧
    delete db0 "not-a-uuid" = (.err (.InvalidReservationId "not-a-uuid"), db0) ∧
    get db0 "not-a-uuid" = (.err (.InvalidReservationId "not-a-uuid"), db0) :=
  c8_malformed_id_rejected_early db0 "not-a-uuid" "x" (by decide)

/-- A status integer with a corresponding enum value round-trips through
the store enum back to itself. -/
theorem status_roundtrip (i : Int) (s : ReservationStatus)
    (h : ReservationStatus.from_i32 i = some s) :
    (ReservationStatus.ofRsvp s.toDb).toI32 = i := by
  unfold ReservationStatus.from_i32 at h
  split_ifs at h with h0 h1 h2 h3
  · injection h with hs
    subst hs
    subst h0
    rfl
  · injection h with hs
    subst hs
    subst h1
    rfl
  · injection h with hs
    subst hs
    subst h2
    rfl
  · injection h with hs
    subst hs
    subst h3
    rfl

/-- Selecting by the id of a freshly appended row finds that row. -/
theorem dbGet_append_new (rows : List Row) (newRow : Row)
    (hnew : ∀ row ∈ rows, row.id ≠ newRow.id) :
    dbGet (rows ++ [newRow]) newRow.id = some newRow := by
  unfold dbGet
  rw [List.find?_append]
  have h1 : rows.find? (fun r => r.id == newRow.id) = none := by
    rw [List.find?_eq_none]
    intro x hx
    simp [hnew x hx]
  rw [h1]
  simp

/-- The reserve equation on a validated, non-conflicting input: the
returned reservation is the argument with only its id replaced by the
assigned one, and the store gains exactly one row carrying the submitted
fields at whole-second resolution with the resolved status. -/
theorem reserve_ok_eq (db : Db) (r : Reservation) (st et : Timestamp)
    (hst : r.start_time = some st) (het : r.end_time = some et)
    (hval : r.validate = .ok ())
    (hfree : db.rows.find? (fun row => row.resource_id == r.resource_id &&
        decide (row.tstart < et.seconds) && decide (st.seconds < row.tend)) = none) :
    reserve db r = (.ok { r with id := db.fresh db.clock },
      ⟨db.rows ++ [⟨db.fresh db.clock, r.user_id, r.resource_id, st.seconds, et.seconds,
        r.note, ((ReservationStatus.from_i32 r.status).getD .Pending).toDb⟩],
       db.fresh, db.clock + 1⟩) := by
  have hts : r.get_timespan = some (⟨st.seconds, 0⟩, ⟨et.seconds, 0⟩) := by
    unfold Reservation.get_timespan
    rw [hst, het]
    rfl
  have hins : dbInsert db r.user_id r.resource_id st.seconds et.seconds r.note
      ((ReservationStatus.from_i32 r.status).getD .Pending).toDb =
      .ok (db.fresh db.clock,
        ⟨db.rows ++ [⟨db.fresh db.clock, r.user_id, r.resource_id, st.seconds, et.seconds,
          r.note, ((ReservationStatus.from_i32 r.status).getD .Pending).toDb⟩],
         db.fresh, db.clock + 1⟩) := by
    unfold dbInsert
    rw [hfree]
  unfold reserve
  rw [hval]
  simp only [hts, hins]

/-! ## Claim C10 -/

/-- C10 (store modelled from the spec): on a validated, non-conflicting
input, reserve returns the argument struct with only the id field
replaced by the store-assigned id — user, resource, bounds, note and the
raw status integer are returned exactly as submitted — while the
persisted row stores the resolved status; in particular a status integer
with no corresponding enum value is persisted as Pending even though the
returned reservation still carries the original integer. -/
theorem c10_reserve_frame (db : Db) (r : Reservation) (st et : Timestamp)
    (hst : r.start_time = some st) (het : r.end_time = some et)
    (hval : r.validate = .ok ())
    (hfree : db.rows.find? (fun row => row.resource_id == r.resource_id &&
        decide (row.tstart < et.seconds) && decide (st.seconds < row.tend)) = none) :
    reserve db r = (.ok { r with id := db.fresh db.clock },
      ⟨db.rows ++ [⟨db.fresh db.clock, r.user_id, r.resource_id, st.seconds, et.seconds,
        r.note, ((ReservationStatus.from_i32 r.status).getD .Pending).toDb⟩],
       db.fresh, db.clock + 1⟩) ∧
    (ReservationStatus.from_i32 r.status = none →
      ((ReservationStatus.from_i32 r.status).getD .Pending).toDb = RsvpStatus.Pending) := by
  refine ⟨reserve_ok_eq db r st et hst het hval hfree, ?_⟩
  intro hnone
  rw [hnone]
  rfl

/-- C10 witness: a concrete reservation with status integer 7 is returned
with status 7 and only the id replaced, while the stored row is
Pending. -/
theorem c10_witness :
    reserve db0 rStatus7 = (.ok { rStatus7 with id := uuid0 },
      ⟨[⟨uuid0, "u1", "res1", 50, 100, "hello", RsvpStatus.Pending⟩], db0.fresh, 1⟩) ∧
    ReservationStatus.from_i32 rStatus7.status = none :=
  ⟨(c10_reserve_frame db0 rStatus7 ⟨50, 0⟩ ⟨100, 0⟩ rfl rfl (by decide) rfl).1,
   by decide⟩

/-! ## Claim C9 -/

/-- C9 (amended; store modelled from the spec): converting any instant to
a protobuf timestamp and back yields the instant truncated to whole
seconds; and persisting a validated, non-conflicting reservation then
fetching it by the assigned id yields a reservation whose fields other
than id equal the submitted values with timestamps at one-second
resolution — except that a status integer with no corresponding enum
value comes back as Pending (the integer 1). -/
theorem c9_roundtrip_second_resolution :
    (∀ dt : DateTime, to_timestamp dt = .ok ⟨dt.secs, 0⟩ ∧
      to_datetime (some ⟨dt.secs, 0⟩) = .ok ⟨dt.secs, 0⟩) ∧
    (∀ (db : Db) (r : Reservation) (st et : Timestamp),
      r.start_time = some st → r.end_time = some et → r.validate = .ok () →
      uuidParse (db.fresh db.clock) = some (db.fresh db.clock) →
      (∀ row ∈ db.rows, row.id ≠ db.fresh db.clock) →
      db.rows.find? (fun row => row.resource_id == r.resource_id &&
        decide (row.tstart < et.seconds) && decide (st.seconds < row.tend)) = none →
      reserveThenGet db r = .ok { r with
        id := db.fresh db.clock,
        status := if (ReservationStatus.from_i32 r.status).isSome then r.status else 1,
        start_time := some ⟨st.seconds, 0⟩,
        end_time := some ⟨et.seconds, 0⟩ }) := by
  constructor
  · intro dt
    exact ⟨to_timestamp_eq dt, rfl⟩
  · intro db r st et hst het hval hfresh hnew hfree
    rw [reserveThenGet]
    simp only [reserve_ok_eq db r st et hst het hval hfree]
    have hget : dbGet (db.rows ++ [⟨db.fresh db.clock, r.user_id, r.resource_id,
        st.seconds, et.seconds, r.note,
        ((ReservationStatus.from_i32 r.status).getD .Pending).toDb⟩]) (db.fresh db.clock) =
        some ⟨db.fresh db.clock, r.user_id, r.resource_id, st.seconds, et.seconds, r.note,
          ((ReservationStatus.from_i32 r.status).getD .Pending).toDb⟩ :=
      dbGet_append_new db.rows _ hnew
    unfold get
    simp only [hfresh, hget, Reservation.from_row, to_timestamp_eq]
    rcases hfi : ReservationStatus.from_i32 r.status with _ | s
    · simp only [hfi, Option.getD_none, Option.isSome_none, Bool.false_eq_true, if_false]
      rfl
    · simp only [hfi, Option.getD_some, Option.isSome_some, if_true]
      have hs := status_roundtrip r.status s hfi
      simp only [hs]

/-- C9 witness: the persist-fetch equation at a concrete store and
reservation. -/
theorem c9_witness :
    reserveThenGet db0 rPending = .ok { rPending with
      id := uuid0,
      status := if (ReservationStatus.from_i32 rPending.status).isSome then rPending.status else 1,
      start_time := some ⟨50, 0⟩, end_time := some ⟨100, 0⟩ } :=
  c9_roundtrip_second_resolution.2 db0 rPending ⟨50, 0⟩ ⟨100, 0⟩ rfl rfl
    (by decide) (by decide) (by decide) rfl

set_option maxRecDepth 100000 in
/-- C9 counterexample: a valid reservation submitted with status integer
7 is fetched back with status 1, so the fetched reservation does not
agree with the submitted one on every field other than id. -/
theorem c9_status_counterexample :
    rStatus7.validate = .ok () ∧
    reserveThenGet db0 rStatus7 ≠ .ok { rStatus7 with id := uuid0 } ∧
    reserveThenGet db0 rStatus7 = .ok { rStatus7 with id := uuid0, status := 1 } := by
  decide

end Rsvp
